import Mathlib

/-!
Verification of the BankAccount repository (src/bank.py) against its
specification.  The Python source is shallowly embedded: strings are lists of
characters, the process-wide mutable class attributes (`TransactionID.trans_num`
and `Account._tz`) form an explicit `BankState` threaded through every
operation, and fallible code returns `Except`.
-/

/-- Strings of the embedded program: lists of characters. -/
abbrev Str := List Char

/-- The character for a decimal digit, as produced by Python number formatting. -/
def digitChar (n : Nat) : Char := Char.ofNat (48 + n)

/-- Fuel-driven core of decimal formatting of a natural number. -/
def natReprAux : Nat → Nat → Str
  | 0, _ => []
  | fuel + 1, n =>
    if n < 10 then [digitChar n] else natReprAux fuel (n / 10) ++ [digitChar (n % 10)]

/-- Decimal representation of a natural number, as Python `str` renders it. -/
def natRepr (n : Nat) : Str := natReprAux (n + 1) n

/-- Decimal representation of an integer, as Python `str` renders it:
a minus sign followed by the digits for negative values. -/
def intRepr : Int → Str
  | .ofNat n => natRepr n
  | .negSucc n => '-' :: natRepr (n + 1)

/-- The numeric value of a decimal digit character, `none` on other characters. -/
def digitVal (c : Char) : Option Nat :=
  if 48 ≤ c.toNat ∧ c.toNat ≤ 57 then some (c.toNat - 48) else none

/-- Accumulating decimal parser over a character list. -/
def parseNatAux : Nat → Str → Option Nat
  | acc, [] => some acc
  | acc, c :: cs =>
    match digitVal c with
    | some d => parseNatAux (acc * 10 + d) cs
    | none => none

/-- Parse a non-empty all-digit string into a natural number. -/
def parseNat (s : Str) : Option Nat :=
  match s with
  | [] => none
  | _ :: _ => parseNatAux 0 s

/-- Python `int(s)` on the decimal strings relevant here: an optional single
sign followed by digits.  (Surrounding whitespace and underscore grouping,
which CPython also tolerates, never occur in this program's inputs.) -/
def pyInt (s : Str) : Option Int :=
  match s with
  | [] => none
  | c :: rest =>
    if c = '-' then (parseNat rest).map (fun n => -(n : Int))
    else if c = '+' then (parseNat rest).map (fun n => (n : Int))
    else (parseNat (c :: rest)).map (fun n => (n : Int))

/-- Left-pad a string with zeros to width `k`, as `%02d`-style formatting does. -/
def zeroPad (k : Nat) (s : Str) : Str := List.replicate (k - s.length) '0' ++ s

/-- Split a string at every hyphen, as Python `s.split(chr(45))` does. -/
def splitDash : Str → List Str
  | [] => [[]]
  | c :: rest =>
    if c = '-' then [] :: splitDash rest
    else
      match splitDash rest with
      | [] => [[c]]
      | f :: fs => (c :: f) :: fs

/-- Does the string begin with the given pattern? -/
def beginsWith : Str → Str → Bool
  | [], _ => true
  | _ :: _, [] => false
  | p :: ps, c :: cs => p == c && beginsWith ps cs

/-- First index at or after `i` where `pat` occurs in `s`, scanning `s`. -/
def findSub : Str → Str → Nat → Option Nat
  | [], pat, i => if beginsWith pat [] then some i else none
  | c :: rest, pat, i =>
    if beginsWith pat (c :: rest) then some i else findSub rest pat (i + 1)

/-- Python substring containment, the `pat in s` test on strings. -/
def pyInStr (pat s : Str) : Bool := (findSub s pat 0).isSome

/-- Python `s.index(pat)`: index of the first occurrence (meaningful only when
`pat` occurs in `s`, which the source checks first). -/
def pyIndexOf (s pat : Str) : Nat := (findSub s pat 0).getD 0

/-- Python string subscription `s[i]`, including negative indices counting from
the end; `none` models `IndexError`. -/
def pyStrIndex (s : Str) (i : Int) : Option Char :=
  if 0 ≤ i then s.get? i.toNat
  else if (s.length : Int) + i < 0 then none
  else s.get? ((s.length : Int) + i).toNat

/-- Python whitespace characters stripped by `str.strip` (the ASCII ones). -/
def isPySpace (c : Char) : Bool :=
  c == ' ' || c == '\t' || c == '\n' || c == '\r' || c == Char.ofNat 11 || c == Char.ofNat 12

/-- Python `str.strip()`: drop leading and trailing whitespace. -/
def pyStrip (s : Str) : Str :=
  ((s.dropWhile isPySpace).reverse.dropWhile isPySpace).reverse

section StringLemmas

theorem natReprAux_fuel (f : Nat) : ∀ g n, n < f → n < g → natReprAux f n = natReprAux g n := by
  induction f with
  | zero => intro g n h; omega
  | succ f ih =>
    intro g n hf hg
    match g, hg with
    | g + 1, hg =>
      show natReprAux (f + 1) n = natReprAux (g + 1) n
      simp only [natReprAux]
      by_cases h10 : n < 10
      · simp [h10]
      · simp only [h10, if_false]
        have hlt : n / 10 < n := Nat.div_lt_self (by omega) (by omega)
        rw [ih g (n / 10) (by omega) (by omega)]

/-- The recursion equation for `natRepr`. -/
theorem natRepr_eq (n : Nat) :
    natRepr n = if n < 10 then [digitChar n] else natRepr (n / 10) ++ [digitChar (n % 10)] := by
  show natReprAux (n + 1) n = _
  simp only [natReprAux]
  by_cases h10 : n < 10
  · simp [h10]
  · simp only [h10, if_false]
    have hlt : n / 10 < n := Nat.div_lt_self (by omega) (by omega)
    rw [natReprAux_fuel n (n / 10 + 1) (n / 10) (by omega) (by omega)]
    rfl

theorem natRepr_ne_nil (n : Nat) : natRepr n ≠ [] := by
  rw [natRepr_eq]
  by_cases h10 : n < 10 <;> simp [h10]

theorem digitChar_toNat (d : Nat) (h : d < 10) : (digitChar d).toNat = 48 + d := by
  interval_cases d <;> decide

theorem digitVal_digitChar (d : Nat) (h : d < 10) : digitVal (digitChar d) = some d := by
  interval_cases d <;> decide

theorem mem_natRepr (n : Nat) : ∀ c ∈ natRepr n, ∃ d, d < 10 ∧ c = digitChar d := by
  induction n using Nat.strong_induction_on with
  | _ n ih =>
    intro c hc
    rw [natRepr_eq] at hc
    by_cases h10 : n < 10
    · simp [h10] at hc
      exact ⟨n, h10, hc⟩
    · simp [h10] at hc
      rcases hc with hc | hc
      · exact ih (n / 10) (Nat.div_lt_self (by omega) (by omega)) c hc
      · exact ⟨n % 10, Nat.mod_lt _ (by omega), hc⟩

theorem digit_ne_dash (c : Char) (h : ∃ d, d < 10 ∧ c = digitChar d) : c ≠ '-' := by
  rcases h with ⟨d, hd, rfl⟩
  intro heq
  have h1 := digitChar_toNat d hd
  rw [heq] at h1
  simp at h1
  omega

theorem digit_ne_plus (c : Char) (h : ∃ d, d < 10 ∧ c = digitChar d) : c ≠ '+' := by
  rcases h with ⟨d, hd, rfl⟩
  intro heq
  have h1 := digitChar_toNat d hd
  rw [heq] at h1
  simp at h1
  omega

theorem parseNatAux_append (xs ys : Str) :
    ∀ acc, parseNatAux acc (xs ++ ys) =
      match parseNatAux acc xs with
      | some m => parseNatAux m ys
      | none => none := by
  induction xs with
  | nil => intro acc; rfl
  | cons c cs ih =>
    intro acc
    simp only [List.cons_append, parseNatAux]
    cases h : digitVal c with
    | none => rfl
    | some d => exact ih (acc * 10 + d)

theorem parseNatAux_natRepr (n : Nat) :
    ∀ acc, parseNatAux acc (natRepr n) = some (acc * 10 ^ (natRepr n).length + n) := by
  induction n using Nat.strong_induction_on with
  | _ n ih =>
    intro acc
    rw [natRepr_eq]
    by_cases h10 : n < 10
    · simp [h10, parseNatAux, digitVal_digitChar n h10]
    · simp only [h10, if_false]
      rw [parseNatAux_append]
      rw [ih (n / 10) (Nat.div_lt_self (by omega) (by omega)) acc]
      simp only [parseNatAux, digitVal_digitChar (n % 10) (Nat.mod_lt _ (by omega))]
      simp only [List.length_append, List.length_singleton]
      congr 1
      rw [pow_succ, ← mul_assoc]
      generalize acc * 10 ^ (natRepr (n / 10)).length = A
      have := Nat.div_add_mod n 10
      omega

theorem parseNat_natRepr (n : Nat) : parseNat (natRepr n) = some n := by
  have haux := parseNatAux_natRepr n 0
  simp only [Nat.zero_mul, Nat.zero_add] at haux
  cases h : natRepr n with
  | nil => exact absurd h (natRepr_ne_nil n)
  | cons c cs =>
    rw [h] at haux
    show parseNatAux 0 (c :: cs) = some n
    exact haux

theorem parseNatAux_zeros : ∀ m, parseNatAux 0 (List.replicate m '0') = some 0 := by
  intro m
  induction m with
  | zero => rfl
  | succ m ih =>
    simp only [List.replicate_succ, parseNatAux]
    have h : digitVal '0' = some 0 := by decide
    rw [h]
    simpa using ih

theorem parseNat_zeroPad (k v : Nat) : parseNat (zeroPad k (natRepr v)) = some v := by
  have key : parseNatAux 0 (List.replicate (k - (natRepr v).length) '0' ++ natRepr v) = some v := by
    rw [parseNatAux_append, parseNatAux_zeros]
    have := parseNatAux_natRepr v 0
    simpa using this
  unfold zeroPad
  cases hrep : List.replicate (k - (natRepr v).length) '0' ++ natRepr v with
  | nil =>
    exfalso
    rcases List.append_eq_nil.mp hrep with ⟨-, h2⟩
    exact natRepr_ne_nil v h2
  | cons x xs =>
    show parseNatAux 0 (x :: xs) = some v
    rw [← hrep]
    exact key

theorem mem_zeroPad_natRepr (k v : Nat) :
    ∀ c ∈ zeroPad k (natRepr v), ∃ d, d < 10 ∧ c = digitChar d := by
  intro c hc
  unfold zeroPad at hc
  rw [List.mem_append] at hc
  rcases hc with hc | hc
  · have := List.eq_of_mem_replicate hc
    exact ⟨0, by omega, by rw [this]; rfl⟩
  · exact mem_natRepr v c hc

theorem natRepr_length_le (n k : Nat) (hn : n < 10 ^ k) (hk : 1 ≤ k) :
    (natRepr n).length ≤ k := by
  induction n using Nat.strong_induction_on generalizing k with
  | _ n ih =>
    rw [natRepr_eq]
    by_cases h10 : n < 10
    · simp [h10]; omega
    · simp only [h10, if_false, List.length_append, List.length_singleton]
      have hk2 : 2 ≤ k := by
        by_contra hcon
        have hk1 : k = 1 := by omega
        rw [hk1] at hn
        simp at hn
        omega
      obtain ⟨k2, rfl⟩ : ∃ k2, k = k2 + 2 := ⟨k - 2, by omega⟩
      have hdiv : n / 10 < 10 ^ (k2 + 1) := by
        rw [Nat.div_lt_iff_lt_mul (by omega)]
        calc n < 10 ^ (k2 + 2) := hn
        _ = 10 ^ (k2 + 1) * 10 := by rw [pow_succ]
      have := ih (n / 10) (Nat.div_lt_self (by omega) (by omega)) (k2 + 1) hdiv (by omega)
      omega

theorem zeroPad_length (k : Nat) (s : Str) (h : s.length ≤ k) : (zeroPad k s).length = k := by
  unfold zeroPad
  simp
  omega

theorem splitDash_no_dash (s : Str) (h : ∀ c ∈ s, c ≠ '-') : splitDash s = [s] := by
  induction s with
  | nil => rfl
  | cons c cs ih =>
    have hc : c ≠ '-' := h c (List.mem_cons_self c cs)
    have ihs : splitDash cs = [cs] := ih (fun x hx => h x (List.mem_cons_of_mem c hx))
    show splitDash (c :: cs) = [c :: cs]
    simp only [splitDash]
    rw [if_neg hc, ihs]

theorem splitDash_append (a b : Str) (h : ∀ c ∈ a, c ≠ '-') :
    splitDash (a ++ '-' :: b) = a :: splitDash b := by
  induction a with
  | nil =>
    show splitDash ('-' :: b) = [] :: splitDash b
    simp [splitDash]
  | cons c cs ih =>
    have hc : c ≠ '-' := h c (List.mem_cons_self c cs)
    have ihs := ih (fun x hx => h x (List.mem_cons_of_mem c hx))
    show splitDash (c :: (cs ++ '-' :: b)) = (c :: cs) :: splitDash b
    simp only [splitDash]
    rw [if_neg hc, ihs]

theorem pyInt_digits (s : Str) (hne : s ≠ [])
    (hd : ∀ c ∈ s, ∃ d, d < 10 ∧ c = digitChar d) :
    pyInt s = (parseNat s).map (fun n => (n : Int)) := by
  cases s with
  | nil => exact absurd rfl hne
  | cons c cs =>
    have hc := hd c (List.mem_cons_self c cs)
    have h1 : c ≠ '-' := digit_ne_dash c hc
    have h2 : c ≠ '+' := digit_ne_plus c hc
    simp only [pyInt, h1, h2, if_false]

theorem pyInt_natRepr (n : Nat) : pyInt (natRepr n) = some (n : Int) := by
  rw [pyInt_digits (natRepr n) (natRepr_ne_nil n) (mem_natRepr n)]
  rw [parseNat_natRepr]
  rfl

end StringLemmas

/-- A naive `datetime` instant as the source manipulates it: calendar fields
plus microseconds. -/
structure DateTime where
  year : Nat
  month : Nat
  day : Nat
  hour : Nat
  minute : Nat
  second : Nat
  micro : Nat
deriving DecidableEq, Repr

/-- The Gregorian leap-year rule used by `datetime`. -/
def isLeap (y : Nat) : Bool := y % 4 == 0 && (y % 100 != 0 || y % 400 == 0)

/-- Number of days in a month, as `datetime` validates it. -/
def daysInMonth (y m : Nat) : Nat :=
  if m = 2 then (if isLeap y then 29 else 28)
  else if m = 4 ∨ m = 6 ∨ m = 9 ∨ m = 11 then 30 else 31

/-- The invariant every Python `datetime` object satisfies
(`MINYEAR = 1`, `MAXYEAR = 9999`, valid calendar fields). -/
def validDt (t : DateTime) : Prop :=
  1 ≤ t.year ∧ t.year ≤ 9999 ∧ 1 ≤ t.month ∧ t.month ≤ 12 ∧
  1 ≤ t.day ∧ t.day ≤ daysInMonth t.year t.month ∧
  t.hour ≤ 23 ∧ t.minute ≤ 59 ∧ t.second ≤ 59 ∧ t.micro ≤ 999999

instance (t : DateTime) : Decidable (validDt t) := by
  unfold validDt
  exact inferInstance

/-- `datetime.strftime(dt, fmt)` for the format `%Y%m%d%H%M%S`: zero-padded
year to four digits and the other fields to two, microseconds dropped. -/
def dtRepr (t : DateTime) : Str :=
  zeroPad 4 (natRepr t.year) ++ zeroPad 2 (natRepr t.month) ++
  (zeroPad 2 (natRepr t.day) ++ (zeroPad 2 (natRepr t.hour) ++
  (zeroPad 2 (natRepr t.minute) ++ zeroPad 2 (natRepr t.second))))

/-- `datetime.strptime(s, fmt)` for the format `%Y%m%d%H%M%S` on its canonical
14-digit inputs: fixed-width fields, range-checked, microseconds zero;
`none` models `ValueError`. -/
def parseDt14 (s : Str) : Option DateTime :=
  if s.length = 14 then
    match parseNat (s.take 4), parseNat ((s.drop 4).take 2), parseNat ((s.drop 6).take 2),
          parseNat ((s.drop 8).take 2), parseNat ((s.drop 10).take 2), parseNat (s.drop 12) with
    | some y, some mo, some d, some h, some mi, some se =>
      let t : DateTime := ⟨y, mo, d, h, mi, se, 0⟩
      if validDt t then some t else none
    | _, _, _, _, _, _ => none
  else none

section DateTimeLemmas

theorem parseDt14_segments (a b c d e f : Str)
    (ha : a.length = 4) (hb : b.length = 2) (hc : c.length = 2) (hd : d.length = 2)
    (he : e.length = 2) (hf : f.length = 2) :
    parseDt14 (a ++ b ++ (c ++ (d ++ (e ++ f)))) =
      match parseNat a, parseNat b, parseNat c, parseNat d, parseNat e, parseNat f with
      | some y, some mo, some dd, some h, some mi, some se =>
        let t : DateTime := ⟨y, mo, dd, h, mi, se, 0⟩
        if validDt t then some t else none
      | _, _, _, _, _, _ => none := by
  have hassoc : a ++ b ++ (c ++ (d ++ (e ++ f))) = a ++ (b ++ (c ++ (d ++ (e ++ f)))) := by
    rw [List.append_assoc]
  rw [hassoc]
  set s := a ++ (b ++ (c ++ (d ++ (e ++ f)))) with hs
  have hlen : s.length = 14 := by
    simp [hs, ha, hb, hc, hd, he, hf]
  have ht4 : s.take 4 = a := List.take_left' ha
  have hd4 : s.drop 4 = b ++ (c ++ (d ++ (e ++ f))) := List.drop_left' ha
  have ht6 : (s.drop 4).take 2 = b := by rw [hd4]; exact List.take_left' hb
  have hd6 : s.drop 6 = c ++ (d ++ (e ++ f)) := by
    have : (s.drop 4).drop 2 = s.drop 6 := by rw [List.drop_drop]
    rw [← this, hd4]
    exact List.drop_left' hb
  have ht8 : (s.drop 6).take 2 = c := by rw [hd6]; exact List.take_left' hc
  have hd8 : s.drop 8 = d ++ (e ++ f) := by
    have : (s.drop 6).drop 2 = s.drop 8 := by rw [List.drop_drop]
    rw [← this, hd6]
    exact List.drop_left' hc
  have ht10 : (s.drop 8).take 2 = d := by rw [hd8]; exact List.take_left' hd
  have hd10 : s.drop 10 = e ++ f := by
    have : (s.drop 8).drop 2 = s.drop 10 := by rw [List.drop_drop]
    rw [← this, hd8]
    exact List.drop_left' hd
  have ht12 : (s.drop 10).take 2 = e := by rw [hd10]; exact List.take_left' he
  have hd12 : s.drop 12 = f := by
    have : (s.drop 10).drop 2 = s.drop 12 := by rw [List.drop_drop]
    rw [← this, hd10]
    exact List.drop_left' he
  unfold parseDt14
  rw [if_pos hlen, ht4, ht6, ht8, ht10, ht12, hd12]

/-- Setting the microsecond field to zero preserves `datetime` validity. -/
theorem validDt_micro0 (t : DateTime) (h : validDt t) :
    validDt ⟨t.year, t.month, t.day, t.hour, t.minute, t.second, 0⟩ := by
  obtain ⟨h1, h2, h3, h4, h5, h6, h7, h8, h9, -⟩ := h
  exact ⟨h1, h2, h3, h4, h5, h6, h7, h8, h9, Nat.zero_le 999999⟩

/-- Round trip of the timestamp format: parsing a formatted valid instant
recovers it with the microseconds zeroed. -/
theorem parseDt14_dtRepr (t : DateTime) (h : validDt t) :
    parseDt14 (dtRepr t) = some ⟨t.year, t.month, t.day, t.hour, t.minute, t.second, 0⟩ := by
  obtain ⟨h1, h2, h3, h4, h5, h6, h7, h8, h9, h10⟩ := h
  have hday : t.day ≤ 31 := by
    have : daysInMonth t.year t.month ≤ 31 := by
      unfold daysInMonth
      split
      · split <;> omega
      · split <;> omega
    omega
  have la : (zeroPad 4 (natRepr t.year)).length = 4 :=
    zeroPad_length 4 _ (natRepr_length_le _ 4 (by omega) (by omega))
  have lb : (zeroPad 2 (natRepr t.month)).length = 2 :=
    zeroPad_length 2 _ (natRepr_length_le _ 2 (by omega) (by omega))
  have lc : (zeroPad 2 (natRepr t.day)).length = 2 :=
    zeroPad_length 2 _ (natRepr_length_le _ 2 (by omega) (by omega))
  have ld : (zeroPad 2 (natRepr t.hour)).length = 2 :=
    zeroPad_length 2 _ (natRepr_length_le _ 2 (by omega) (by omega))
  have le2 : (zeroPad 2 (natRepr t.minute)).length = 2 :=
    zeroPad_length 2 _ (natRepr_length_le _ 2 (by omega) (by omega))
  have lf : (zeroPad 2 (natRepr t.second)).length = 2 :=
    zeroPad_length 2 _ (natRepr_length_le _ 2 (by omega) (by omega))
  unfold dtRepr
  rw [parseDt14_segments _ _ _ _ _ _ la lb lc ld le2 lf]
  rw [parseNat_zeroPad, parseNat_zeroPad, parseNat_zeroPad, parseNat_zeroPad,
      parseNat_zeroPad, parseNat_zeroPad]
  have hv : validDt ⟨t.year, t.month, t.day, t.hour, t.minute, t.second, 0⟩ :=
    ⟨h1, h2, h3, h4, h5, h6, h7, h8, h9, Nat.zero_le 999999⟩
  simp only [hv, if_pos]

/-- Every character of the formatted timestamp is a decimal digit. -/
theorem mem_dtRepr (t : DateTime) :
    ∀ c ∈ dtRepr t, ∃ d, d < 10 ∧ c = digitChar d := by
  intro c hc
  unfold dtRepr at hc
  simp only [List.mem_append] at hc
  rcases hc with ((hc | hc) | hc | hc | hc | hc) <;> exact mem_zeroPad_natRepr _ _ c hc

theorem dtRepr_ne_nil (t : DateTime) : dtRepr t ≠ [] := by
  unfold dtRepr
  intro hcon
  rcases List.append_eq_nil.mp hcon with ⟨h1, -⟩
  rcases List.append_eq_nil.mp h1 with ⟨h2, -⟩
  unfold zeroPad at h2
  rcases List.append_eq_nil.mp h2 with ⟨-, h3⟩
  exact natRepr_ne_nil _ h3

end DateTimeLemmas

/-- A Python `datetime.timezone` value: either the interned `timezone.utc`
singleton or a constructed fixed offset with a name. -/
inductive PyTz where
  | utc
  | namedOffset (offset_seconds : Int) (name : Str)
deriving DecidableEq, Repr

/-- The `TimeZone` value object of bank.py: name plus hour/minute offsets,
validated at construction. -/
structure TimeZone where
  name : Str
  hours : Int
  minutes : Int
deriving DecidableEq, Repr

/-- `TimeZone.offset`: `timedelta(hours=hours, minutes=minutes)`, in seconds. -/
def TimeZone.offset_seconds (tz : TimeZone) : Int := tz.hours * 3600 + tz.minutes * 60

/-- A transaction identifier object.  The Python instance stores no sequence
number of its own: `transaction_num` reads the class attribute unless the
parse path has planted an instance attribute, modelled by
`trans_num_override`. -/
structure TransactionID where
  trans_code : Int
  trans_type : Char
  account_num : Int
  utc_time : DateTime
  tz : PyTz
  trans_num_override : Option Int
deriving DecidableEq, Repr

/-- The exceptions bank.py can raise. -/
inductive PyErr where
  | valueError
  | typeError
  | indexError
  | attributeError
  | transactionCodeError
  | transactionAbort (receipt : TransactionID)
deriving DecidableEq, Repr

/-- The process-wide mutable class attributes: `TransactionID.trans_num` and
`Account._tz` (unset until the first `set_tz` call). -/
structure BankState where
  trans_num : Int
  account_tz : Option PyTz
deriving DecidableEq, Repr

/-- The state at interpreter start: `trans_num = -1`, no `Account._tz` yet. -/
def initState : BankState := ⟨-1, none⟩

/-- `TimeZone.__init__`: validates name (non-empty string), hours and minutes
(integers strictly inside (-24, 24) and (-60, 60)). -/
def mkTimeZone (name : Str) (hours minutes : Int) : Except PyErr TimeZone :=
  if name.length < 1 then .error .valueError
  else if 24 ≤ hours ∨ hours ≤ -24 then .error .valueError
  else if 60 ≤ minutes ∨ minutes ≤ -60 then .error .valueError
  else .ok ⟨name, hours, minutes⟩

/-- The string constant `self._codes` in `TransactionID.__init__`. -/
def dwix : Str := ['D', 'W', 'I', 'X']

/-- The `utc_time` setter combined with the `utc_time or datetime.utcnow()`
default: a missing or empty (falsy) argument becomes `now`; a string argument
goes through `strptime`. -/
def resolveUtc (arg : Option (DateTime ⊕ Str)) (now : DateTime) : Except PyErr DateTime :=
  match arg with
  | none => .ok now
  | some (.inl dt) => .ok dt
  | some (.inr str) =>
    match str with
    | [] => .ok now
    | _ :: _ =>
      match parseDt14 str with
      | some dt => .ok dt
      | none => .error .valueError

/-- `TransactionID.__init__`: looks the code up in the string `DWIX` (Python
subscription, so negative codes index from the end and out-of-range codes
raise `IndexError`), resolves the timestamp and timezone defaults, and
increments the class counter as its final step, so a failed construction does
not consume a counter value. -/
def mkTransactionID (trans_code : Int) (account_num : Int)
    (utc_arg : Option (DateTime ⊕ Str)) (tz_arg : Option PyTz)
    (now : DateTime) (s : BankState) : Except PyErr TransactionID × BankState :=
  match pyStrIndex dwix trans_code with
  | none => (.error .indexError, s)
  | some letter =>
    match resolveUtc utc_arg now with
    | .error e => (.error e, s)
    | .ok tm =>
      (.ok ⟨trans_code, letter, account_num, tm, tz_arg.getD PyTz.utc, none⟩,
       { s with trans_num := s.trans_num + 1 })

/-- Python attribute lookup of `self.trans_num`: the instance attribute when
the parse path has set one, else the live class counter. -/
def TransactionID.trans_num (t : TransactionID) (s : BankState) : Int :=
  match t.trans_num_override with
  | some k => k
  | none => s.trans_num

/-- The `transaction_num` property: the confirmation code
`{type}-{account}-{YYYYMMDDHHMMSS}-{sequence}`.  It re-reads `self.trans_num`
at call time, so its fourth field depends on the current state. -/
def TransactionID.transaction_num (t : TransactionID) (s : BankState) : Str :=
  [t.trans_type] ++ '-' :: intRepr t.account_num ++
    '-' :: dtRepr t.utc_time ++ '-' :: intRepr (t.trans_num s)

/-- An account object: identity fields and balance (exact real arithmetic,
covering the int/Fraction/Decimal values the source accepts). -/
structure Account where
  account_num : Int
  first_name : Str
  last_name : Str
  balance : ℚ
deriving DecidableEq, Repr

/-- An argument that must be a non-negative real number: either a numeric
value or something of a non-numeric type. -/
inductive NumArg where
  | num (q : ℚ)
  | nonNum
deriving DecidableEq, Repr

/-- The argument `Account.set_tz` accepts: a `TimeZone` value object or a
native `datetime.timezone`. -/
abbrev TzArg := TimeZone ⊕ PyTz

/-- The `timezone(tz.offset, tz.name)` conversion inside `Account.set_tz`. -/
def set_tz_value : TzArg → PyTz
  | .inl t => .namedOffset t.offset_seconds t.name
  | .inr z => z

/-- `Account.set_tz`: stores the (converted) timezone in the class attribute
shared by the whole process. -/
def set_tz (arg : TzArg) (s : BankState) : BankState :=
  { s with account_tz := some (set_tz_value arg) }

/-- `Account.__init__`: validates `first_name` (then strips it), strips
`last_name`, mutates the process-wide timezone via `set_tz`, and only then
validates the balance — so a balance failure happens after the shared
timezone has already been changed. -/
def mkAccount (account_num : Int) (first_name last_name : Str)
    (tz_arg : TzArg) (balance : NumArg) (s : BankState) :
    Except PyErr Account × BankState :=
  if first_name.length < 1 then (.error .valueError, s)
  else
    let fn := pyStrip first_name
    let ln := pyStrip last_name
    let s1 := set_tz tz_arg s
    match balance with
    | .nonNum => (.error .valueError, s1)
    | .num q =>
      if q < 0 then (.error .valueError, s1)
      else (.ok ⟨account_num, fn, ln, q⟩, s1)

/-- `Account.deposit`: validates the amount, adds it to the balance, and mints
a Deposit receipt.  The updated account is returned alongside the result,
mirroring the in-place mutation. -/
def Account.deposit (a : Account) (v : NumArg) (now : DateTime) (s : BankState) :
    Except PyErr TransactionID × Account × BankState :=
  match v with
  | .nonNum => (.error .valueError, a, s)
  | .num q =>
    if q < 0 then (.error .valueError, a, s)
    else
      let a1 : Account := { a with balance := a.balance + q }
      match mkTransactionID 0 a.account_num none none now s with
      | (.ok tid, s1) => (.ok tid, a1, s1)
      | (.error e, s1) => (.error e, a1, s1)

/-- `Account.withdraw`: validates the amount; if it would overdraw, mints an
Abort-Excess receipt (consuming a counter value) and raises `TransactionAbort`
carrying it, leaving the balance untouched; otherwise subtracts and mints a
Withdraw receipt. -/
def Account.withdraw (a : Account) (v : NumArg) (now : DateTime) (s : BankState) :
    Except PyErr TransactionID × Account × BankState :=
  match v with
  | .nonNum => (.error .valueError, a, s)
  | .num q =>
    if q < 0 then (.error .valueError, a, s)
    else if a.balance - q < 0 then
      match mkTransactionID 3 a.account_num none none now s with
      | (.ok tid, s1) => (.error (.transactionAbort tid), a, s1)
      | (.error e, s1) => (.error e, a, s1)
    else
      let a1 : Account := { a with balance := a.balance - q }
      match mkTransactionID 1 a.account_num none none now s with
      | (.ok tid, s1) => (.ok tid, a1, s1)
      | (.error e, s1) => (.error e, a1, s1)

/-- `Account.parse_confirmation_code` (a classmethod): unpack the string into
exactly four hyphen-separated fields (`ValueError` otherwise), check the first
field with `trans_type not in DWIX` (substring containment!), take
`DWIX.index(...)` as the code, convert the account field with `int`, fetch the
process-wide timezone (`AttributeError` if never set), construct a
TransactionID through the normal counting path, and finally overwrite its
`trans_num` with the parsed fourth field. -/
def Account.parse_confirmation_code (input : Str) (now : DateTime) (s : BankState) :
    Except PyErr TransactionID × BankState :=
  match splitDash input with
  | [tt, an, ut, tn] =>
    if pyInStr tt dwix then
      let code : Int := pyIndexOf dwix tt
      match pyInt an with
      | none => (.error .valueError, s)
      | some acct =>
        match s.account_tz with
        | none => (.error .attributeError, s)
        | some tz =>
          match mkTransactionID code acct (some (.inr ut)) (some tz) now s with
          | (.error e, s1) => (.error e, s1)
          | (.ok tid, s1) =>
            match pyInt tn with
            | none => (.error .valueError, s1)
            | some k => (.ok { tid with trans_num_override := some k }, s1)
    else (.error .transactionCodeError, s)
  | _ => (.error .valueError, s)

deriving instance DecidableEq for Except

section OperationLemmas

/-- A `TransactionID` construction either fails leaving the state untouched or
succeeds bumping the counter by one. -/
theorem mkTransactionID_state (c a : Int) (u : Option (DateTime ⊕ Str)) (z : Option PyTz)
    (now : DateTime) (s : BankState) :
    (mkTransactionID c a u z now s).2 = s ∨
    (mkTransactionID c a u z now s).2 = { s with trans_num := s.trans_num + 1 } := by
  unfold mkTransactionID
  cases pyStrIndex dwix c with
  | none => left; rfl
  | some L =>
    cases resolveUtc u now with
    | error e => left; rfl
    | ok tm => right; rfl

/-- A successful construction has no sequence override and bumps the counter
by exactly one. -/
theorem mkTransactionID_ok (c a : Int) (u : Option (DateTime ⊕ Str)) (z : Option PyTz)
    (now : DateTime) (s : BankState) (t : TransactionID) (s1 : BankState)
    (h : mkTransactionID c a u z now s = (.ok t, s1)) :
    t.trans_num_override = none ∧ s1 = { s with trans_num := s.trans_num + 1 } := by
  unfold mkTransactionID at h
  cases hp : pyStrIndex dwix c with
  | none => simp only [hp] at h; simp at h
  | some L =>
    simp only [hp] at h
    cases hu : resolveUtc u now with
    | error e => simp only [hu] at h; simp at h
    | ok tm =>
      simp only [hu, Prod.mk.injEq, Except.ok.injEq] at h
      obtain ⟨h1, h2⟩ := h
      exact ⟨by rw [← h1], h2.symm⟩

/-- Evaluated form of a construction whose code resolves to a letter and whose
timestamp argument is absent. -/
theorem mkTransactionID_code_ok (c : Int) (L : Char) (hcL : pyStrIndex dwix c = some L)
    (a : Int) (z : Option PyTz) (now : DateTime) (s : BankState) :
    mkTransactionID c a none z now s =
      (.ok ⟨c, L, a, now, z.getD PyTz.utc, none⟩, { s with trans_num := s.trans_num + 1 }) := by
  unfold mkTransactionID
  simp only [hcL]
  rfl

/-- Evaluated form of a construction fed a formatted timestamp string, as the
parse path does. -/
theorem mkTransactionID_str_ok (c : Int) (L : Char) (hcL : pyStrIndex dwix c = some L)
    (a : Int) (t : DateTime) (ht : validDt t) (z : Option PyTz) (now : DateTime)
    (s : BankState) :
    mkTransactionID c a (some (.inr (dtRepr t))) z now s =
      (.ok ⟨c, L, a, ⟨t.year, t.month, t.day, t.hour, t.minute, t.second, 0⟩,
            z.getD PyTz.utc, none⟩,
       { s with trans_num := s.trans_num + 1 }) := by
  have hresolve : resolveUtc (some (.inr (dtRepr t))) now =
      .ok ⟨t.year, t.month, t.day, t.hour, t.minute, t.second, 0⟩ := by
    obtain ⟨x, xs, hd⟩ : ∃ x xs, dtRepr t = x :: xs := by
      cases hdd : dtRepr t with
      | nil => exact absurd hdd (dtRepr_ne_nil t)
      | cons x xs => exact ⟨x, xs, rfl⟩
    unfold resolveUtc
    rw [hd]
    show (match parseDt14 (x :: xs) with
          | some dt => Except.ok dt
          | none => Except.error PyErr.valueError) = _
    rw [← hd, parseDt14_dtRepr t ht]
  unfold mkTransactionID
  simp only [hcL, hresolve]

/-- Which codes Python subscription accepts on the four-letter string `DWIX`:
`s[i]` raises `IndexError` exactly outside `[-4, 3]`. -/
theorem pyStrIndex_dwix (code : Int) :
    pyStrIndex dwix code = none ↔ (3 < code ∨ code < -4) := by
  unfold pyStrIndex
  have hlen : dwix.length = 4 := rfl
  by_cases h0 : 0 ≤ code
  · rw [if_pos h0, List.get?_eq_none, hlen]
    omega
  · rw [if_neg h0]
    by_cases h1 : (dwix.length : Int) + code < 0
    · rw [if_pos h1]
      rw [hlen] at h1
      constructor
      · intro; right; omega
      · intro; rfl
    · rw [if_neg h1, List.get?_eq_none, hlen]
      rw [hlen] at h1
      omega

/-- A successful parse bumps the counter by exactly one (the internal
construction), leaving the timezone attribute alone. -/
theorem parse_ok_state (input : Str) (now : DateTime) (s : BankState)
    (tid : TransactionID) (s1 : BankState)
    (h : Account.parse_confirmation_code input now s = (.ok tid, s1)) :
    s1 = { s with trans_num := s.trans_num + 1 } := by
  unfold Account.parse_confirmation_code at h
  split at h
  case _ tt an ut tn heq =>
    by_cases hin : pyInStr tt dwix
    · simp only [hin, if_true] at h
      cases han : pyInt an with
      | none => simp only [han] at h; simp at h
      | some acct =>
        simp only [han] at h
        cases htz : s.account_tz with
        | none => simp only [htz] at h; simp at h
        | some tz =>
          simp only [htz] at h
          cases hmk : mkTransactionID (↑(pyIndexOf dwix tt)) acct (some (.inr ut)) (some tz)
              now s with
          | mk r s2 =>
            simp only [hmk] at h
            cases r with
            | error e => simp at h
            | ok tid0 =>
              cases htn : pyInt tn with
              | none => simp only [htn] at h; simp at h
              | some k =>
                simp only [htn, Prod.mk.injEq, Except.ok.injEq] at h
                have h2 := (mkTransactionID_ok _ _ _ _ _ _ _ _ hmk).2
                rw [htz] at h2
                rw [← h.2]
                exact h2
    · simp only [hin, if_false] at h
      simp at h
  case _ =>
    simp at h

/-- Any parse leaves the counter unchanged or bumps it by one; it never
decreases. -/
theorem parse_state (input : Str) (now : DateTime) (s : BankState) :
    (Account.parse_confirmation_code input now s).2 = s ∨
    (Account.parse_confirmation_code input now s).2 =
      { s with trans_num := s.trans_num + 1 } := by
  cases hp : Account.parse_confirmation_code input now s with
  | mk r s1 =>
    cases r with
    | ok tid =>
      right
      show s1 = _
      exact parse_ok_state input now s tid s1 hp
    | error e =>
      unfold Account.parse_confirmation_code at hp
      split at hp
      case _ tt an ut tn heq =>
        by_cases hin : pyInStr tt dwix
        · simp only [hin, if_true] at hp
          cases han : pyInt an with
          | none =>
            simp only [han, Prod.mk.injEq] at hp
            left
            exact hp.2.symm
          | some acct =>
            simp only [han] at hp
            cases htz : s.account_tz with
            | none =>
              simp only [htz, Prod.mk.injEq] at hp
              left
              exact hp.2.symm
            | some tz =>
              simp only [htz] at hp
              have hm := mkTransactionID_state (↑(pyIndexOf dwix tt)) acct (some (.inr ut))
                (some tz) now s
              cases hmk : mkTransactionID (↑(pyIndexOf dwix tt)) acct (some (.inr ut))
                  (some tz) now s with
              | mk r2 s2 =>
                rw [hmk] at hm
                simp only [hmk] at hp
                rw [htz] at hm
                cases r2 with
                | error e2 =>
                  simp only [Prod.mk.injEq] at hp
                  rw [← hp.2]
                  simpa using hm
                | ok tid0 =>
                  cases htn : pyInt tn with
                  | none =>
                    simp only [htn, Prod.mk.injEq] at hp
                    rw [← hp.2]
                    simpa using hm
                  | some k =>
                    simp only [htn] at hp
                    simp at hp
        · rw [if_neg hin] at hp
          simp only [Prod.mk.injEq] at hp
          left
          exact hp.2.symm
      case _ =>
        simp only [Prod.mk.injEq] at hp
        left
        exact hp.2.symm

/-- Evaluated form of a valid deposit. -/
theorem deposit_eq (a : Account) (q : ℚ) (now : DateTime) (s : BankState) (hq : ¬ q < 0) :
    Account.deposit a (.num q) now s =
      (.ok ⟨0, 'D', a.account_num, now, PyTz.utc, none⟩,
       { a with balance := a.balance + q },
       { s with trans_num := s.trans_num + 1 }) := by
  simp only [Account.deposit]
  rw [if_neg hq, mkTransactionID_code_ok 0 'D' (by decide)]
  rfl

/-- Evaluated form of a successful withdrawal. -/
theorem withdraw_ok_eq (a : Account) (q : ℚ) (now : DateTime) (s : BankState)
    (hq : ¬ q < 0) (hb : ¬ a.balance - q < 0) :
    Account.withdraw a (.num q) now s =
      (.ok ⟨1, 'W', a.account_num, now, PyTz.utc, none⟩,
       { a with balance := a.balance - q },
       { s with trans_num := s.trans_num + 1 }) := by
  simp only [Account.withdraw]
  rw [if_neg hq, if_neg hb, mkTransactionID_code_ok 1 'W' (by decide)]
  rfl

/-- Evaluated form of an overdrawing withdrawal: `TransactionAbort` carrying a
fresh Abort-Excess receipt, balance untouched, one counter value consumed. -/
theorem withdraw_abort_eq (a : Account) (q : ℚ) (now : DateTime) (s : BankState)
    (hq : ¬ q < 0) (hb : a.balance - q < 0) :
    Account.withdraw a (.num q) now s =
      (.error (.transactionAbort ⟨3, 'X', a.account_num, now, PyTz.utc, none⟩), a,
       { s with trans_num := s.trans_num + 1 }) := by
  simp only [Account.withdraw]
  rw [if_neg hq, if_pos hb, mkTransactionID_code_ok 3 'X' (by decide)]
  rfl

/-- Withdrawals never decrease the counter. -/
theorem withdraw_state (a : Account) (v : NumArg) (now : DateTime) (s : BankState) :
    (Account.withdraw a v now s).2.2 = s ∨
    (Account.withdraw a v now s).2.2 = { s with trans_num := s.trans_num + 1 } := by
  cases v with
  | nonNum => left; rfl
  | num q =>
    by_cases hq : q < 0
    · left
      simp only [Account.withdraw]
      rw [if_pos hq]
    · by_cases hb : a.balance - q < 0
      · right
        rw [withdraw_abort_eq a q now s hq hb]
      · right
        rw [withdraw_ok_eq a q now s hq hb]

/-- Deposits never decrease the counter. -/
theorem deposit_state (a : Account) (v : NumArg) (now : DateTime) (s : BankState) :
    (Account.deposit a v now s).2.2 = s ∨
    (Account.deposit a v now s).2.2 = { s with trans_num := s.trans_num + 1 } := by
  cases v with
  | nonNum => left; rfl
  | num q =>
    by_cases hq : q < 0
    · left
      simp only [Account.deposit]
      rw [if_pos hq]
    · right
      rw [deposit_eq a q now s hq]

/-- Account construction never touches the counter. -/
theorem mkAccount_trans_num (an : Int) (fn ln : Str) (tza : TzArg) (b : NumArg)
    (s : BankState) : (mkAccount an fn ln tza b s).2.trans_num = s.trans_num := by
  unfold mkAccount
  by_cases hf : fn.length < 1
  · rw [if_pos hf]
  · rw [if_neg hf]
    cases b with
    | nonNum => rfl
    | num q =>
      by_cases hq : q < 0
      · simp only [if_pos hq]; rfl
      · simp only [if_neg hq]; rfl

theorem pyStrip_all_space (s : Str) (h : ∀ c ∈ s, isPySpace c = true) : pyStrip s = [] := by
  unfold pyStrip
  have h1 : s.dropWhile isPySpace = [] := by
    rw [List.dropWhile_eq_nil_iff]
    exact fun c hc => h c hc
  rw [h1]
  rfl

end OperationLemmas

/-- C6 (counterexample): the claim says every code outside {0,1,2,3} fails
with a coding error, but Python subscription accepts negative indices:
`TransactionID(-1, 7)` succeeds, aliasing the Abort-Excess letter `X`. -/
theorem c6_counterexample :
    mkTransactionID (-1) 7 none none ⟨2020, 1, 1, 12, 0, 0, 0⟩ initState =
      (.ok ⟨-1, 'X', 7, ⟨2020, 1, 1, 12, 0, 0, 0⟩, PyTz.utc, none⟩, ⟨0, none⟩) := by
  decide

/-- C6 (amended): constructing a TransactionID fails with an indexing (coding)
error exactly when the code lies outside `[-4, 3]`; codes in `[-4, -1]`
succeed via Python negative indexing into the four-letter string. -/
theorem c6_code_range (code an : Int) (nw : DateTime) (s : BankState) :
    ((mkTransactionID code an none none nw s).1 = .error .indexError ↔
      (3 < code ∨ code < -4)) ∧
    (-4 ≤ code → code ≤ 3 →
      ∃ t s1, mkTransactionID code an none none nw s = (.ok t, s1) ∧
        t.trans_code = code) := by
  constructor
  · by_cases hc : 3 < code ∨ code < -4
    · have hnone : pyStrIndex dwix code = none := (pyStrIndex_dwix code).mpr hc
      unfold mkTransactionID
      simp only [hnone]
      simp [hc]
    · have hsome : pyStrIndex dwix code ≠ none := fun h => hc ((pyStrIndex_dwix code).mp h)
      obtain ⟨L, hL⟩ := Option.ne_none_iff_exists'.mp hsome
      unfold mkTransactionID
      simp only [hL]
      have hres : resolveUtc none nw = .ok nw := rfl
      rw [hres]
      simp [hc]
  · intro hge hle
    have hsome : pyStrIndex dwix code ≠ none := by
      rw [Ne, pyStrIndex_dwix]
      omega
    obtain ⟨L, hL⟩ := Option.ne_none_iff_exists'.mp hsome
    exact ⟨_, _, mkTransactionID_code_ok code L hL an none nw s, rfl⟩

/-- C6 (witness): code 9 is rejected with an IndexError, code 2 succeeds. -/
theorem c6_witness :
    (mkTransactionID 9 0 none none ⟨2020, 1, 1, 0, 0, 0, 0⟩ initState).1 =
      .error .indexError ∧
    (∃ t s1, mkTransactionID 2 0 none none ⟨2020, 1, 1, 0, 0, 0, 0⟩ initState =
      (.ok t, s1) ∧ t.trans_code = 2) :=
  ⟨(c6_code_range 9 0 ⟨2020, 1, 1, 0, 0, 0, 0⟩ initState).1.mpr (by omega),
   (c6_code_range 2 0 ⟨2020, 1, 1, 0, 0, 0, 0⟩ initState).2 (by omega) (by omega)⟩

/-- C8: the TimeZone constructor succeeds exactly for a non-empty name, hours
strictly inside (-24, 24) and minutes strictly inside (-60, 60); it fails with
a validation error otherwise, and on success the offset is
`hours * 3600 + minutes * 60` seconds. -/
theorem c8_timezone_contract (name : Str) (hours minutes : Int) :
    ((∃ z, mkTimeZone name hours minutes = .ok z) ↔
      (1 ≤ name.length ∧ -24 < hours ∧ hours < 24 ∧ -60 < minutes ∧ minutes < 60)) ∧
    (∀ z, mkTimeZone name hours minutes = .ok z →
      z = ⟨name, hours, minutes⟩ ∧ z.offset_seconds = hours * 3600 + minutes * 60) ∧
    (¬ (1 ≤ name.length ∧ -24 < hours ∧ hours < 24 ∧ -60 < minutes ∧ minutes < 60) →
      mkTimeZone name hours minutes = .error .valueError) := by
  unfold mkTimeZone
  split_ifs with h1 h2 h3
  · refine ⟨⟨?_, ?_⟩, ?_, ?_⟩
    · rintro ⟨z, hz⟩; cases hz
    · intro hcond; exact absurd hcond.1 (by omega)
    · intro z hz; cases hz
    · intro; rfl
  · refine ⟨⟨?_, ?_⟩, ?_, ?_⟩
    · rintro ⟨z, hz⟩; cases hz
    · intro hcond
      obtain ⟨-, hb, hc, -, -⟩ := hcond
      rcases h2 with h2 | h2 <;> omega
    · intro z hz; cases hz
    · intro; rfl
  · refine ⟨⟨?_, ?_⟩, ?_, ?_⟩
    · rintro ⟨z, hz⟩; cases hz
    · intro hcond
      obtain ⟨-, -, -, hd2, he⟩ := hcond
      rcases h3 with h3 | h3 <;> omega
    · intro z hz; cases hz
    · intro; rfl
  · push_neg at h2 h3
    refine ⟨⟨?_, ?_⟩, ?_, ?_⟩
    · intro
      exact ⟨by omega, by omega, by omega, by omega, by omega⟩
    · intro
      exact ⟨_, rfl⟩
    · intro z hz
      injection hz with hz
      exact ⟨hz.symm, by rw [← hz]; rfl⟩
    · intro hcond
      exact absurd ⟨by omega, by omega, by omega, by omega, by omega⟩ hcond

/-- C8 (witness): TimeZone with name M, +5:30 succeeds with offset 19800s. -/
theorem c8_witness :
    mkTimeZone ['M'] 5 30 = .ok ⟨['M'], 5, 30⟩ ∧
    TimeZone.offset_seconds ⟨['M'], 5, 30⟩ = 5 * 3600 + 30 * 60 := by
  obtain ⟨z, hz⟩ := (c8_timezone_contract ['M'] 5 30).1.mpr (by decide)
  obtain ⟨hz1, hz2⟩ := (c8_timezone_contract ['M'] 5 30).2.1 z hz
  subst hz1
  exact ⟨hz, hz2⟩

/-- C9: a first name that is non-empty but all whitespace passes the length
check (applied before stripping), so the account is constructed and its stored
first name is the empty string. -/
theorem c9_whitespace_name (name : Str) (hne : name ≠ [])
    (hsp : ∀ c ∈ name, isPySpace c = true) (an : Int) (ln : Str)
    (tza : TzArg) (q : ℚ) (hq : 0 ≤ q) (s : BankState) :
    mkAccount an name ln tza (.num q) s =
      (.ok ⟨an, [], pyStrip ln, q⟩, set_tz tza s) := by
  unfold mkAccount
  have hlen : ¬ name.length < 1 := by
    cases name with
    | nil => exact absurd rfl hne
    | cons c cs => simp
  rw [if_neg hlen]
  simp only [pyStrip_all_space name hsp]
  rw [if_neg (not_lt.mpr hq)]

/-- C9 (witness): a single-blank first name yields an account whose stored
first name is empty. -/
theorem c9_witness :
    mkAccount 1 [' '] [] (.inr PyTz.utc) (.num 0) initState =
      (.ok ⟨1, [], pyStrip [], 0⟩, set_tz (.inr PyTz.utc) initState) :=
  c9_whitespace_name [' '] (by decide) (by decide) 1 [] (.inr PyTz.utc) 0 (le_refl 0)
    initState

/-- C10: with a valid first name and timezone but a negative or non-numeric
balance, account construction raises a validation error, yet the process-wide
display timezone has already been overwritten by the `set_tz` side effect. -/
theorem c10_tz_mutation_on_error (an : Int) (fn ln : Str) (hf : 1 ≤ fn.length)
    (tza : TzArg) (b : NumArg)
    (hb : b = .nonNum ∨ ∃ q, b = .num q ∧ q < 0) (s : BankState) :
    mkAccount an fn ln tza b s = (.error .valueError, set_tz tza s) ∧
    (set_tz tza s).account_tz = some (set_tz_value tza) := by
  constructor
  · unfold mkAccount
    rw [if_neg (by omega : ¬ fn.length < 1)]
    rcases hb with rfl | ⟨q, rfl, hq⟩
    · rfl
    · simp only
      rw [if_pos hq]
  · rfl

/-- C10 (witness): constructing with balance -1 fails but still replaces the
shared timezone with the +1h zone passed in. -/
theorem c10_witness :
    mkAccount 1 ['A'] [] (.inr (PyTz.namedOffset 3600 ['E'])) (.num (-1)) initState =
      (.error .valueError, set_tz (.inr (PyTz.namedOffset 3600 ['E'])) initState) ∧
    (set_tz (.inr (PyTz.namedOffset 3600 ['E'])) initState).account_tz =
      some (set_tz_value (.inr (PyTz.namedOffset 3600 ['E']))) :=
  c10_tz_mutation_on_error 1 ['A'] [] (by decide) (.inr (PyTz.namedOffset 3600 ['E']))
    (.num (-1)) (Or.inr ⟨-1, rfl, by norm_num⟩) initState

/-- C3: the shared counter starts at -1 (below the first assigned value 0), is
bumped by exactly 1 by every successful TransactionID construction — including
the internal construction of a successful parse and the Abort-Excess receipt
of a rejected withdrawal — and no operation ever decreases it. -/
theorem c3_counter_protocol :
    initState.trans_num = -1 ∧
    (∀ c a u z now s t s1, mkTransactionID c a u z now s = (.ok t, s1) →
      s1.trans_num = s.trans_num + 1) ∧
    (∀ c a u z now s, s.trans_num ≤ (mkTransactionID c a u z now s).2.trans_num) ∧
    (∀ input now s tid s1, Account.parse_confirmation_code input now s = (.ok tid, s1) →
      s1.trans_num = s.trans_num + 1) ∧
    (∀ input now s, s.trans_num ≤ (Account.parse_confirmation_code input now s).2.trans_num) ∧
    (∀ a v now s tx a1 s1,
      Account.withdraw a v now s = (.error (.transactionAbort tx), a1, s1) →
      s1.trans_num = s.trans_num + 1) ∧
    (∀ a v now s, s.trans_num ≤ (Account.withdraw a v now s).2.2.trans_num) ∧
    (∀ a v now s, s.trans_num ≤ (Account.deposit a v now s).2.2.trans_num) ∧
    (∀ an fn ln tza b s, s.trans_num ≤ (mkAccount an fn ln tza b s).2.trans_num) := by
  refine ⟨rfl, ?_, ?_, ?_, ?_, ?_, ?_, ?_, ?_⟩
  · intro c a u z now s t s1 h
    rw [(mkTransactionID_ok c a u z now s t s1 h).2]
  · intro c a u z now s
    rcases mkTransactionID_state c a u z now s with h | h
    · rw [h]
    · rw [h]
      show s.trans_num ≤ s.trans_num + 1
      omega
  · intro input now s tid s1 h
    rw [parse_ok_state input now s tid s1 h]
  · intro input now s
    rcases parse_state input now s with h | h
    · rw [h]
    · rw [h]
      show s.trans_num ≤ s.trans_num + 1
      omega
  · intro a v now s tx a1 s1 h
    cases v with
    | nonNum => simp [Account.withdraw] at h
    | num q =>
      by_cases hq : q < 0
      · simp only [Account.withdraw, if_pos hq] at h
        simp at h
      · by_cases hb : a.balance - q < 0
        · rw [withdraw_abort_eq a q now s hq hb] at h
          simp only [Prod.mk.injEq] at h
          rw [← h.2.2]
        · rw [withdraw_ok_eq a q now s hq hb] at h
          simp at h
  · intro a v now s
    rcases withdraw_state a v now s with h | h
    · rw [h]
    · rw [h]
      show s.trans_num ≤ s.trans_num + 1
      omega
  · intro a v now s
    rcases deposit_state a v now s with h | h
    · rw [h]
    · rw [h]
      show s.trans_num ≤ s.trans_num + 1
      omega
  · intro an fn ln tza b s
    rw [mkAccount_trans_num]

/-- C3 (witness): the first construction moves the counter from -1 to 0. -/
theorem c3_witness :
    (⟨0, none⟩ : BankState).trans_num = initState.trans_num + 1 :=
  c3_counter_protocol.2.1 0 1 none none ⟨2020, 1, 1, 0, 0, 0, 0⟩ initState
    ⟨0, 'D', 1, ⟨2020, 1, 1, 0, 0, 0, 0⟩, PyTz.utc, none⟩ ⟨0, none⟩ (by decide)

/-- C5: a valid deposit adds the amount to the balance and returns a Deposit
receipt; a valid covered withdrawal subtracts it and returns a Withdraw
receipt; both receipts carry the account's number. -/
theorem c5_deposit_withdraw (a : Account) (v : ℚ) (nw : DateTime) (s : BankState)
    (hv : 0 ≤ v) :
    (Account.deposit a (.num v) nw s =
      (.ok ⟨0, 'D', a.account_num, nw, PyTz.utc, none⟩,
       { a with balance := a.balance + v },
       { s with trans_num := s.trans_num + 1 })) ∧
    (v ≤ a.balance →
      Account.withdraw a (.num v) nw s =
        (.ok ⟨1, 'W', a.account_num, nw, PyTz.utc, none⟩,
         { a with balance := a.balance - v },
         { s with trans_num := s.trans_num + 1 })) := by
  constructor
  · exact deposit_eq a v nw s (not_lt.mpr hv)
  · intro hle
    exact withdraw_ok_eq a v nw s (not_lt.mpr hv) (not_lt.mpr (sub_nonneg.mpr hle))

/-- C5 (witness): deposit 3 and withdraw 3 on a balance-10 account. -/
theorem c5_witness :
    (Account.deposit ⟨7, ['A'], [], 10⟩ (.num 3) ⟨2020, 1, 1, 0, 0, 0, 0⟩ initState =
      (.ok ⟨0, 'D', 7, ⟨2020, 1, 1, 0, 0, 0, 0⟩, PyTz.utc, none⟩,
       ⟨7, ['A'], [], 10 + 3⟩, ⟨0, none⟩)) ∧
    ((3 : ℚ) ≤ 10 →
      Account.withdraw ⟨7, ['A'], [], 10⟩ (.num 3) ⟨2020, 1, 1, 0, 0, 0, 0⟩ initState =
        (.ok ⟨1, 'W', 7, ⟨2020, 1, 1, 0, 0, 0, 0⟩, PyTz.utc, none⟩,
         ⟨7, ['A'], [], 10 - 3⟩, ⟨0, none⟩)) :=
  c5_deposit_withdraw ⟨7, ['A'], [], 10⟩ 3 ⟨2020, 1, 1, 0, 0, 0, 0⟩ initState (by norm_num)

/-- C4: withdrawing more than the balance raises `TransactionAbort` carrying a
fresh Abort-Excess receipt, leaves the balance unchanged, consumes one counter
value, and the next successful withdrawal's sequence number exceeds the last
successful one's by at least 2. -/
theorem c4_abort_sequence (a : Account) (v1 v2 v3 : ℚ) (nw : DateTime) (s : BankState)
    (h1p : 0 ≤ v1) (h1 : v1 ≤ a.balance)
    (h2p : 0 ≤ v2) (h2 : a.balance - v1 - v2 < 0)
    (h3p : 0 ≤ v3) (h3 : v3 ≤ a.balance - v1) :
    ∃ t1 s1 tx s2 t3 s3,
      Account.withdraw a (.num v1) nw s =
        (.ok t1, { a with balance := a.balance - v1 }, s1) ∧
      Account.withdraw { a with balance := a.balance - v1 } (.num v2) nw s1 =
        (.error (.transactionAbort tx), { a with balance := a.balance - v1 }, s2) ∧
      tx.trans_code = 3 ∧ tx.trans_type = 'X' ∧ tx.account_num = a.account_num ∧
      s2.trans_num = s1.trans_num + 1 ∧
      Account.withdraw { a with balance := a.balance - v1 } (.num v3) nw s2 =
        (.ok t3, { a with balance := a.balance - v1 - v3 }, s3) ∧
      t1.trans_num s1 + 2 ≤ t3.trans_num s3 := by
  have e1 := withdraw_ok_eq a v1 nw s (not_lt.mpr h1p) (not_lt.mpr (sub_nonneg.mpr h1))
  have e2 := withdraw_abort_eq { a with balance := a.balance - v1 } v2 nw
    { s with trans_num := s.trans_num + 1 } (not_lt.mpr h2p) h2
  have e3 := withdraw_ok_eq { a with balance := a.balance - v1 } v3 nw
    { s with trans_num := s.trans_num + 1 + 1 } (not_lt.mpr h3p)
    (not_lt.mpr (sub_nonneg.mpr h3))
  refine ⟨⟨1, 'W', a.account_num, nw, PyTz.utc, none⟩,
    { s with trans_num := s.trans_num + 1 },
    ⟨3, 'X', a.account_num, nw, PyTz.utc, none⟩,
    { s with trans_num := s.trans_num + 1 + 1 },
    ⟨1, 'W', a.account_num, nw, PyTz.utc, none⟩,
    { s with trans_num := s.trans_num + 1 + 1 + 1 },
    e1, e2, rfl, rfl, rfl, rfl, e3, ?_⟩
  show s.trans_num + 1 + 2 ≤ s.trans_num + 1 + 1 + 1
  omega

/-- C4 (witness): balance 10, withdraw 4 (ok), withdraw 100 (abort), withdraw
1 (ok): the final receipt's sequence number is the first one's plus 2. -/
theorem c4_witness :
    ∃ t1 s1 tx s2 t3 s3,
      Account.withdraw ⟨1, ['A'], [], 10⟩ (.num 4) ⟨2020, 1, 1, 0, 0, 0, 0⟩ initState =
        (.ok t1, ⟨1, ['A'], [], 10 - 4⟩, s1) ∧
      Account.withdraw ⟨1, ['A'], [], 10 - 4⟩ (.num 100) ⟨2020, 1, 1, 0, 0, 0, 0⟩ s1 =
        (.error (.transactionAbort tx), ⟨1, ['A'], [], 10 - 4⟩, s2) ∧
      tx.trans_code = 3 ∧ tx.trans_type = 'X' ∧ tx.account_num = 1 ∧
      s2.trans_num = s1.trans_num + 1 ∧
      Account.withdraw ⟨1, ['A'], [], 10 - 4⟩ (.num 1) ⟨2020, 1, 1, 0, 0, 0, 0⟩ s2 =
        (.ok t3, ⟨1, ['A'], [], 10 - 4 - 1⟩, s3) ∧
      TransactionID.trans_num t1 s1 + 2 ≤ TransactionID.trans_num t3 s3 :=
  c4_abort_sequence ⟨1, ['A'], [], 10⟩ 4 100 1 ⟨2020, 1, 1, 0, 0, 0, 0⟩ initState
    (by norm_num) (by show (4 : ℚ) ≤ 10; norm_num) (by norm_num)
    (by show (10 : ℚ) - 4 - 100 < 0; norm_num) (by norm_num)
    (by show (1 : ℚ) ≤ 10 - 4; norm_num)

/-- C2 (counterexample): sequence numbers are not stored per instance: after a
second TransactionID is created, the confirmation codes of both identifiers
(read in that state) embed the same sequence number 1, so the numbers embedded
in the codes of two distinct identifiers are neither unique nor ordered by
creation time. -/
theorem c2_counterexample :
    mkTransactionID 0 1 none none ⟨2020, 1, 1, 0, 0, 0, 0⟩ initState =
      (.ok ⟨0, 'D', 1, ⟨2020, 1, 1, 0, 0, 0, 0⟩, PyTz.utc, none⟩, ⟨0, none⟩) ∧
    mkTransactionID 0 2 none none ⟨2020, 1, 1, 0, 0, 0, 0⟩ ⟨0, none⟩ =
      (.ok ⟨0, 'D', 2, ⟨2020, 1, 1, 0, 0, 0, 0⟩, PyTz.utc, none⟩, ⟨1, none⟩) ∧
    (⟨0, 'D', 1, ⟨2020, 1, 1, 0, 0, 0, 0⟩, PyTz.utc, none⟩ : TransactionID) ≠
      ⟨0, 'D', 2, ⟨2020, 1, 1, 0, 0, 0, 0⟩, PyTz.utc, none⟩ ∧
    TransactionID.trans_num ⟨0, 'D', 1, ⟨2020, 1, 1, 0, 0, 0, 0⟩, PyTz.utc, none⟩
        ⟨1, none⟩ =
      TransactionID.trans_num ⟨0, 'D', 2, ⟨2020, 1, 1, 0, 0, 0, 0⟩, PyTz.utc, none⟩
        ⟨1, none⟩ ∧
    TransactionID.transaction_num ⟨0, 'D', 1, ⟨2020, 1, 1, 0, 0, 0, 0⟩, PyTz.utc, none⟩
        ⟨1, none⟩ =
      ['D', '-', '1', '-', '2', '0', '2', '0', '0', '1', '0', '1', '0', '0', '0', '0',
       '0', '0', '-', '1'] := by
  decide

/-- C2 (amended): the counter value assigned at construction time is strictly
increasing across constructions: if a second identifier is created in a state
no earlier than the one the first creation produced, then the sequence numbers
their confirmation codes embed when each is read in the state its own
construction produced are strictly ordered (hence globally unique). -/
theorem c2_amended (c1 c2 a1 a2 : Int) (u1 u2 : Option (DateTime ⊕ Str))
    (z1 z2 : Option PyTz) (n1 n2 : DateTime) (s1 s1' s2 s2' : BankState)
    (t1 t2 : TransactionID)
    (h1 : mkTransactionID c1 a1 u1 z1 n1 s1 = (.ok t1, s1'))
    (h2 : mkTransactionID c2 a2 u2 z2 n2 s2 = (.ok t2, s2'))
    (horder : s1'.trans_num ≤ s2.trans_num) :
    t1.trans_num s1' < t2.trans_num s2' := by
  obtain ⟨ho1, hs1⟩ := mkTransactionID_ok _ _ _ _ _ _ _ _ h1
  obtain ⟨ho2, hs2⟩ := mkTransactionID_ok _ _ _ _ _ _ _ _ h2
  have e1 : t1.trans_num s1' = s1'.trans_num := by
    unfold TransactionID.trans_num
    rw [ho1]
  have e2 : t2.trans_num s2' = s2'.trans_num := by
    unfold TransactionID.trans_num
    rw [ho2]
  rw [e1, e2, hs1, hs2]
  have horder2 : s1.trans_num + 1 ≤ s2.trans_num := by
    rw [hs1] at horder
    exact horder
  show s1.trans_num + 1 < s2.trans_num + 1
  omega

/-- C2 (witness): the identifier created second, read right after its own
creation, carries a strictly larger sequence number than the first. -/
theorem c2_witness :
    TransactionID.trans_num ⟨0, 'D', 1, ⟨2020, 1, 1, 0, 0, 0, 0⟩, PyTz.utc, none⟩
        ⟨0, none⟩ <
      TransactionID.trans_num ⟨0, 'D', 2, ⟨2020, 1, 1, 0, 0, 0, 0⟩, PyTz.utc, none⟩
        ⟨1, none⟩ :=
  c2_amended 0 0 1 2 none none none none ⟨2020, 1, 1, 0, 0, 0, 0⟩ ⟨2020, 1, 1, 0, 0, 0, 0⟩
    initState ⟨0, none⟩ ⟨0, none⟩ ⟨1, none⟩
    ⟨0, 'D', 1, ⟨2020, 1, 1, 0, 0, 0, 0⟩, PyTz.utc, none⟩
    ⟨0, 'D', 2, ⟨2020, 1, 1, 0, 0, 0, 0⟩, PyTz.utc, none⟩
    (by decide) (by decide) (by decide)

/-- Splitting a four-field confirmation code whose fields contain no hyphen. -/
theorem splitDash_four (L : Char) (hL : L ≠ '-') (A B C : Str)
    (hA : ∀ c ∈ A, c ≠ '-') (hB : ∀ c ∈ B, c ≠ '-') (hC : ∀ c ∈ C, c ≠ '-') :
    splitDash ([L] ++ '-' :: A ++ '-' :: B ++ '-' :: C) = [[L], A, B, C] := by
  have e1 : [L] ++ '-' :: A ++ '-' :: B ++ '-' :: C =
      [L] ++ '-' :: (A ++ '-' :: (B ++ '-' :: C)) := by
    simp
  rw [e1,
    splitDash_append [L] _ (by
      intro ch hch
      rw [List.mem_singleton] at hch
      rw [hch]
      exact hL),
    splitDash_append A _ hA, splitDash_append B _ hB, splitDash_no_dash C hC]

/-- C7 (counterexample): the parser's check is `trans_type not in DWIX`, which
is substring containment, so the two-letter first field `DW` passes the check
and is silently decoded as code 0 rather than raising a transaction-code
error. -/
theorem c7_counterexample :
    Account.parse_confirmation_code
        ['D', 'W', '-', '1', '-', '2', '0', '2', '0', '0', '1', '0', '1', '1', '2',
         '0', '0', '0', '0', '-', '5'] ⟨2020, 1, 1, 0, 0, 0, 0⟩ ⟨-1, some PyTz.utc⟩ =
      (.ok ⟨0, 'D', 1, ⟨2020, 1, 1, 12, 0, 0, 0⟩, PyTz.utc, some 5⟩,
       ⟨0, some PyTz.utc⟩) := by
  decide

/-- C7 (amended): with a wrong number of hyphen-separated fields the parser
fails with a structural error; with exactly four fields whose first field is
not a contiguous substring of `DWIX` it fails with a transaction-code error
(single letters other than D/W/I/X are such non-substrings, but so-called
valid multi-letter substrings like `DW` slip through). -/
theorem c7_amended (input : Str) (nw : DateTime) (s : BankState) :
    ((splitDash input).length ≠ 4 →
      Account.parse_confirmation_code input nw s = (.error .valueError, s)) ∧
    (∀ f0 f1 f2 f3, splitDash input = [f0, f1, f2, f3] →
      pyInStr f0 dwix = false →
      Account.parse_confirmation_code input nw s = (.error .transactionCodeError, s)) := by
  constructor
  · intro hlen
    unfold Account.parse_confirmation_code
    split
    case _ tt an ut tn heq => exact absurd (by rw [heq]; rfl) hlen
    case _ => rfl
  · intro f0 f1 f2 f3 hsplit hnotin
    unfold Account.parse_confirmation_code
    split
    case _ tt an ut tn heq =>
      have heq2 : [tt, an, ut, tn] = [f0, f1, f2, f3] := by rw [← heq, hsplit]
      obtain ⟨e0, e1, e2, e3⟩ :
          tt = f0 ∧ an = f1 ∧ ut = f2 ∧ tn = f3 := by simpa using heq2
      subst e0
      simp [hnotin]
    case _ hctr =>
      exact (hctr f0 f1 f2 f3 hsplit).elim

/-- C7 (witness): a 1-field input fails structurally; a 4-field input whose
first field is the letter Q fails with a transaction-code error. -/
theorem c7_witness :
    Account.parse_confirmation_code ['X', 'X'] ⟨2020, 1, 1, 0, 0, 0, 0⟩ initState =
      (.error .valueError, initState) ∧
    Account.parse_confirmation_code ['Q', '-', '1', '-', '2', '-', '3']
        ⟨2020, 1, 1, 0, 0, 0, 0⟩ initState =
      (.error .transactionCodeError, initState) :=
  ⟨(c7_amended ['X', 'X'] ⟨2020, 1, 1, 0, 0, 0, 0⟩ initState).1 (by decide),
   (c7_amended ['Q', '-', '1', '-', '2', '-', '3'] ⟨2020, 1, 1, 0, 0, 0, 0⟩ initState).2
     ['Q'] ['1'] ['2'] ['3'] (by decide) (by decide)⟩

/-- Core of the confirmation-code round trip, parameterised by the resolved
letter of the transaction code. -/
theorem parse_roundtrip_core (c : Int) (L : Char)
    (hcL : pyStrIndex dwix c = some L)
    (hLdash : L ≠ '-')
    (hLin : pyInStr [L] dwix = true)
    (hLidx : ((pyIndexOf dwix [L] : Nat) : Int) = c)
    (n : Nat) (t : DateTime) (ht : validDt t) (hmic : t.micro = 0)
    (tz : PyTz) (nw nw2 : DateTime) (s : BankState) (hs : -1 ≤ s.trans_num)
    (htz : s.account_tz = some tz) :
    ∃ tid s1 tid2,
      mkTransactionID c ((n : Nat) : Int) (some (.inl t)) none nw s = (.ok tid, s1) ∧
      Account.parse_confirmation_code (tid.transaction_num s1) nw2 s1 =
        (.ok tid2, { s1 with trans_num := s1.trans_num + 1 }) ∧
      tid2.trans_code = c ∧ tid2.account_num = ((n : Nat) : Int) ∧ tid2.utc_time = t ∧
      (∃ f0 f1 f2 f3 k,
        splitDash (tid.transaction_num s1) = [f0, f1, f2, f3] ∧
        pyInt f3 = some k ∧ tid2.trans_num_override = some k) := by
  have hmk1 : mkTransactionID c ((n : Nat) : Int) (some (.inl t)) none nw s =
      (.ok ⟨c, L, ((n : Nat) : Int), t, PyTz.utc, none⟩,
       { s with trans_num := s.trans_num + 1 }) := by
    unfold mkTransactionID
    simp only [hcL]
    rfl
  set tid : TransactionID := ⟨c, L, ((n : Nat) : Int), t, PyTz.utc, none⟩ with htid
  set s1 : BankState := { s with trans_num := s.trans_num + 1 } with hs1def
  obtain ⟨m, hm⟩ : ∃ m : Nat, s.trans_num + 1 = ((m : Nat) : Int) :=
    ⟨(s.trans_num + 1).toNat, by omega⟩
  have hcode : tid.transaction_num s1 =
      [L] ++ '-' :: natRepr n ++ '-' :: dtRepr t ++ '-' :: natRepr m := by
    unfold TransactionID.transaction_num
    have h1 : tid.trans_num s1 = ((m : Nat) : Int) := hm
    rw [h1]
    rfl
  have hsplit : splitDash (tid.transaction_num s1) =
      [[L], natRepr n, dtRepr t, natRepr m] := by
    rw [hcode]
    exact splitDash_four L hLdash (natRepr n) (dtRepr t) (natRepr m)
      (fun ch hch => digit_ne_dash ch (mem_natRepr n ch hch))
      (fun ch hch => digit_ne_dash ch (mem_dtRepr t ch hch))
      (fun ch hch => digit_ne_dash ch (mem_natRepr m ch hch))
  have hs1tz : s1.account_tz = some tz := htz
  have hdt0 : (⟨t.year, t.month, t.day, t.hour, t.minute, t.second, 0⟩ : DateTime) = t := by
    cases t with
    | mk y mo d h mi se mic =>
      simp only at hmic
      rw [hmic]
  have hmk2 := mkTransactionID_str_ok c L hcL ((n : Nat) : Int) t ht (some tz) nw2 s1
  rw [hdt0] at hmk2
  refine ⟨tid, s1, ⟨c, L, ((n : Nat) : Int), t, tz, some ((m : Nat) : Int)⟩, hmk1, ?_,
    rfl, rfl, rfl,
    ⟨[L], natRepr n, dtRepr t, natRepr m, ((m : Nat) : Int), hsplit, pyInt_natRepr m, rfl⟩⟩
  unfold Account.parse_confirmation_code
  simp only [hsplit]
  rw [if_pos hLin]
  rw [hLidx]
  simp only [pyInt_natRepr, htz, hmk2, Option.getD_some]

/-- C1 (amended): for each code in {0,1,2,3}, each non-negative account
number, and each valid timestamp with zero microseconds, in any reachable
state whose display timezone has been set, parsing the confirmation code of a
freshly created TransactionID succeeds, reconstructs the code, account number
and UTC timestamp exactly, and the reconstructed instance's sequence number is
the integer parsed from the code's fourth field. -/
theorem c1_roundtrip (c : Int) (hc : c = 0 ∨ c = 1 ∨ c = 2 ∨ c = 3)
    (n : Nat) (t : DateTime) (ht : validDt t) (hmic : t.micro = 0)
    (tz : PyTz) (nw nw2 : DateTime) (s : BankState) (hs : -1 ≤ s.trans_num)
    (htz : s.account_tz = some tz) :
    ∃ tid s1 tid2,
      mkTransactionID c ((n : Nat) : Int) (some (.inl t)) none nw s = (.ok tid, s1) ∧
      Account.parse_confirmation_code (tid.transaction_num s1) nw2 s1 =
        (.ok tid2, { s1 with trans_num := s1.trans_num + 1 }) ∧
      tid2.trans_code = c ∧ tid2.account_num = ((n : Nat) : Int) ∧ tid2.utc_time = t ∧
      (∃ f0 f1 f2 f3 k,
        splitDash (tid.transaction_num s1) = [f0, f1, f2, f3] ∧
        pyInt f3 = some k ∧ tid2.trans_num_override = some k) := by
  rcases hc with rfl | rfl | rfl | rfl
  · exact parse_roundtrip_core 0 'D' (by decide) (by decide) (by decide) (by decide)
      n t ht hmic tz nw nw2 s hs htz
  · exact parse_roundtrip_core 1 'W' (by decide) (by decide) (by decide) (by decide)
      n t ht hmic tz nw nw2 s hs htz
  · exact parse_roundtrip_core 2 'I' (by decide) (by decide) (by decide) (by decide)
      n t ht hmic tz nw nw2 s hs htz
  · exact parse_roundtrip_core 3 'X' (by decide) (by decide) (by decide) (by decide)
      n t ht hmic tz nw nw2 s hs htz

/-- C1 (counterexample): for a negative account number the round trip fails:
`str(-1)` contains a hyphen, so the confirmation code splits into five fields
and parsing raises the unpacking `ValueError` instead of reconstructing
anything. -/
theorem c1_counterexample :
    mkTransactionID 0 (-1) (some (.inl ⟨2020, 1, 1, 12, 0, 0, 0⟩)) none
        ⟨2020, 1, 1, 12, 0, 0, 0⟩ ⟨-1, some PyTz.utc⟩ =
      (.ok ⟨0, 'D', -1, ⟨2020, 1, 1, 12, 0, 0, 0⟩, PyTz.utc, none⟩, ⟨0, some PyTz.utc⟩) ∧
    TransactionID.transaction_num
        ⟨0, 'D', -1, ⟨2020, 1, 1, 12, 0, 0, 0⟩, PyTz.utc, none⟩ ⟨0, some PyTz.utc⟩ =
      ['D', '-', '-', '1', '-', '2', '0', '2', '0', '0', '1', '0', '1', '1', '2', '0',
       '0', '0', '0', '-', '0'] ∧
    Account.parse_confirmation_code
        (TransactionID.transaction_num
          ⟨0, 'D', -1, ⟨2020, 1, 1, 12, 0, 0, 0⟩, PyTz.utc, none⟩ ⟨0, some PyTz.utc⟩)
        ⟨2020, 1, 1, 12, 0, 0, 0⟩ ⟨0, some PyTz.utc⟩ =
      (.error .valueError, ⟨0, some PyTz.utc⟩) := by
  decide

/-- C1 (witness): the round trip at code 0, account 5, timestamp
2020-01-02 03:04:05, starting from the initial counter with UTC display
timezone set. -/
theorem c1_witness :
    ∃ tid s1 tid2,
      mkTransactionID 0 ((5 : Nat) : Int) (some (.inl ⟨2020, 1, 2, 3, 4, 5, 0⟩)) none
          ⟨2020, 1, 2, 3, 4, 5, 0⟩ ⟨-1, some PyTz.utc⟩ = (.ok tid, s1) ∧
      Account.parse_confirmation_code (tid.transaction_num s1) ⟨2020, 1, 2, 3, 4, 5, 0⟩
          s1 =
        (.ok tid2, { s1 with trans_num := s1.trans_num + 1 }) ∧
      tid2.trans_code = 0 ∧ tid2.account_num = ((5 : Nat) : Int) ∧
      tid2.utc_time = ⟨2020, 1, 2, 3, 4, 5, 0⟩ ∧
      (∃ f0 f1 f2 f3 k,
        splitDash (tid.transaction_num s1) = [f0, f1, f2, f3] ∧
        pyInt f3 = some k ∧ tid2.trans_num_override = some k) :=
  c1_roundtrip 0 (Or.inl rfl) 5 ⟨2020, 1, 2, 3, 4, 5, 0⟩ (by decide) rfl PyTz.utc
    ⟨2020, 1, 2, 3, 4, 5, 0⟩ ⟨2020, 1, 2, 3, 4, 5, 0⟩ ⟨-1, some PyTz.utc⟩ (by decide) rfl
